import Mathlib

/-!
# Verification of the Talos installer disk-provisioning subsystem

Shallow embedding of the manifest planner, manifest executor, mountpoint
builder and boot-slot bookkeeping of the `install` package
(`cmd/installer/pkg/install`), together with proofs of the specified
properties.

The repository snapshot contains the package's test suite
(`cmd/installer/pkg/install/manifest_test.go`) but not `manifest.go`
itself, so the planner and executor are modelled from the specification
(sections 3, 4.2, 4.3, 4.4), with every quantity the test suite pins
(disk geometry, partition order, type GUIDs, attribute bits, the legacy
partition sizes and the upgrade size formulas) taken from the test file.
Sizes are in bytes unless noted; GPT partition lengths are in sectors of
`lbaSize` bytes, as in the test assertions.
-/

namespace Talos

/-! ## Disk geometry constants (manifest_test.go, lines 41-50) -/

/-- One mebibyte, `install.MiB`. -/
def MiB : Nat := 1024 * 1024

/-- Logical block (sector) size used by the test disk, `lbaSize`. -/
def lbaSize : Nat := 512

/-- Number of sectors the GPT reserves (header plus entry arrays), `gptReserved`. -/
def gptReserved : Nat := 67

/-- The GPT reserved regions measured in bytes. -/
def reservedBytes : Nat := gptReserved * lbaSize

/-- Size of the test disk: 4 GiB (`diskSize` in manifest_test.go). -/
def testDiskSize : Nat := 4 * 1024 * 1024 * 1024

/-- Size of the legacy (two-partition layout) boot partition:
512 MiB (`legacyBootSize` in manifest_test.go, also created at line 402). -/
def legacyBootSize : Nat := 512 * MiB

/-- Size of the legacy ephemeral partition on a disk of `disk` bytes:
everything except the legacy boot partition and the GPT reserved regions
(`legacyEphemeralSize` in manifest_test.go, generalised over the disk size). -/
def legacyEphemeralSizeOf (disk : Nat) : Nat := disk - legacyBootSize - reservedBytes

/-! ## Partition type GUIDs and labels

Modelled from the spec: the `install` and `constants` packages defining
these string constants are not part of the snapshot.  The Linux
filesystem data GUID and the legacy boot GUID appear verbatim in
manifest_test.go (lines 405, 411); the EFI system and BIOS boot GUIDs
are the standard GPT type GUIDs named by the spec's type classes. -/

/-- GPT type GUID of the EFI system partition (`install.EFISystemPartition`). -/
def EFISystemPartition : String := "C12A7328-F81F-11D2-BA4B-00A0C93EC93B"

/-- GPT type GUID of the BIOS boot partition (`install.BIOSBootPartition`). -/
def BIOSBootPartition : String := "21686148-6449-6E6F-744E-656564454649"

/-- GPT type GUID for Linux filesystem data (`install.LinuxFilesystemData`,
manifest_test.go line 411). -/
def LinuxFilesystemData : String := "0FC63DAF-8483-4772-8E79-3D69D8477DE4"

/-- Label of the EFI partition (`constants.EFIPartitionLabel`). -/
def EFIPartitionLabel : String := "EFI"

/-- Label of the BIOS grub partition (`constants.BIOSGrubPartitionLabel`). -/
def BIOSGrubPartitionLabel : String := "BIOS"

/-- Label of the boot partition (`constants.BootPartitionLabel`). -/
def BootPartitionLabel : String := "BOOT"

/-- Label of the meta partition (`constants.MetaPartitionLabel`). -/
def MetaPartitionLabel : String := "META"

/-- Label of the state partition (`constants.StatePartitionLabel`). -/
def StatePartitionLabel : String := "STATE"

/-- Label of the ephemeral partition (`constants.EphemeralPartitionLabel`). -/
def EphemeralPartitionLabel : String := "EPHEMERAL"

/-! ## Fixed partition sizes

Modelled from the spec: "fixed sizes are compile-time constants"
(section 4.2); the constants `install.EFISize`, `install.BIOSGrubSize`,
`install.BootSize`, `install.MetaSize`, `install.StateSize` named by the
test are outside the snapshot, so the development is parametric in them.
`stdSizes` provides representative concrete values for evaluation. -/

/-- The five fixed compile-time partition sizes, in bytes. -/
structure FixedSizes where
  EFISize : Nat
  BIOSGrubSize : Nat
  BootSize : Nat
  MetaSize : Nat
  StateSize : Nat
deriving DecidableEq, Repr

/-- Sum of all five fixed partition sizes. -/
def sumFixed (c : FixedSizes) : Nat :=
  c.EFISize + c.BIOSGrubSize + c.BootSize + c.MetaSize + c.StateSize

/-- Sum of the four fixed sizes that precede the state partition
(EFI, BIOS grub, boot, meta), as in manifest_test.go line 146. -/
def sumFixedNoState (c : FixedSizes) : Nat :=
  c.EFISize + c.BIOSGrubSize + c.BootSize + c.MetaSize

/-- Representative concrete values for the fixed sizes (each a positive
multiple of the sector size, summing to less than the legacy boot size,
as the test's size assertions require). -/
def stdSizes : FixedSizes :=
  { EFISize := 100 * MiB
    BIOSGrubSize := MiB
    BootSize := 300 * MiB
    MetaSize := MiB
    StateSize := 100 * MiB }

/-! ## Data model (spec section 3) -/

/-- Sequence kind of an installer invocation (`runtime.SequenceInstall` /
`runtime.SequenceUpgrade` as used by the tests). -/
inductive Sequence where
  | install : Sequence
  | upgrade : Sequence
deriving DecidableEq, Repr

/-- Output of the layout detector (spec section 4.1). -/
inductive Layout where
  | noLayout : Layout
  | current : Layout
  | legacy : Layout
deriving DecidableEq, Repr

/-- Filesystem kind of a partition (spec section 3). -/
inductive FilesystemKind where
  | vfat : FilesystemKind
  | xfs : FilesystemKind
  | raw : FilesystemKind
deriving DecidableEq, Repr

/-- Action planned for one target (spec section 3). -/
inductive Action where
  | createFresh : Action
  | reuse : Action
  | migrateFromLegacy : Action
deriving DecidableEq, Repr

/-- Installer options relevant to planning (`install.Options` fields
`Force`, `Zero`, `Bootloader` as used by the tests; the device path and
board are irrelevant to the planning rules). -/
structure Options where
  force : Bool
  zero : Bool
  bootloader : Bool
deriving DecidableEq, Repr

/-- One planned target: a partition to create, reuse or migrate.
The mount path is stored as a list of path components below the root
(for example `["system", "state"]` for the state partition). -/
structure Target where
  label : String
  typeGUID : String
  fs : FilesystemKind
  action : Action
  preserveContent : Bool
  sizeBytes : Nat
  attributes : Nat
  mountPath : Option (List String)
deriving DecidableEq, Repr

/-- Planning error taxonomy (spec section 7). -/
inductive PlanError where
  | insufficientSpace : PlanError
  | unsupportedLayout : PlanError
deriving DecidableEq, Repr

/-! ## Size resolution (spec section 4.2) -/

/-- Round `n` down to a multiple of `a`. -/
def alignDown (n a : Nat) : Nat := n / a * a

/-- Remainder size for the fresh-install ephemeral partition:
disk bytes minus all fixed partitions minus the GPT reserved regions,
rounded down to the logical block size. -/
def freshEphemeralBytes (c : FixedSizes) (disk : Nat) : Nat :=
  alignDown (disk - sumFixed c - reservedBytes) lbaSize

/-- Remainder size for the state partition on a preserve upgrade from
the legacy layout, where the ephemeral partition keeps its legacy size:
disk bytes minus the legacy ephemeral size minus the four fixed
partitions before state minus the GPT reserved regions
(manifest_test.go line 146). -/
def legacyStateBytes (c : FixedSizes) (disk : Nat) : Nat :=
  alignDown (disk - legacyEphemeralSizeOf disk - sumFixedNoState c - reservedBytes) lbaSize

/-! ## Target construction (spec sections 3 and 4.2) -/

/-- A migrated or reused target carries its content forward; only a
freshly created one starts empty (spec invariant: MigrateFromLegacy
implies preserve-content). -/
def preservesFor : Action → Bool
  | Action.createFresh => false
  | _ => true

/-- The EFI system partition target (VFAT, mounted at /boot/EFI). -/
def efiTarget (c : FixedSizes) (act : Action) : Target :=
  { label := EFIPartitionLabel
    typeGUID := EFISystemPartition
    fs := FilesystemKind.vfat
    action := act
    preserveContent := preservesFor act
    sizeBytes := c.EFISize
    attributes := 0
    mountPath := some ["boot", "EFI"] }

/-- The BIOS boot partition target (raw, legacy-bootable attribute bit
set: attribute value 4, manifest_test.go line 123). -/
def biosTarget (c : FixedSizes) (act : Action) : Target :=
  { label := BIOSGrubPartitionLabel
    typeGUID := BIOSBootPartition
    fs := FilesystemKind.raw
    action := act
    preserveContent := preservesFor act
    sizeBytes := c.BIOSGrubSize
    attributes := 4
    mountPath := none }

/-- The boot partition target (VFAT, mounted at /boot). -/
def bootTarget (c : FixedSizes) (act : Action) : Target :=
  { label := BootPartitionLabel
    typeGUID := LinuxFilesystemData
    fs := FilesystemKind.vfat
    action := act
    preserveContent := preservesFor act
    sizeBytes := c.BootSize
    attributes := 0
    mountPath := some ["boot"] }

/-- The meta partition target (raw region, no filesystem, no mount). -/
def metaTarget (c : FixedSizes) (act : Action) : Target :=
  { label := MetaPartitionLabel
    typeGUID := LinuxFilesystemData
    fs := FilesystemKind.raw
    action := act
    preserveContent := preservesFor act
    sizeBytes := c.MetaSize
    attributes := 0
    mountPath := none }

/-- The state partition target (XFS, mounted at /system/state); its size
is the fixed `StateSize` except on a preserve upgrade from the legacy
layout, where it absorbs the remainder. -/
def stateTarget (act : Action) (bytes : Nat) : Target :=
  { label := StatePartitionLabel
    typeGUID := LinuxFilesystemData
    fs := FilesystemKind.xfs
    action := act
    preserveContent := preservesFor act
    sizeBytes := bytes
    attributes := 0
    mountPath := some ["system", "state"] }

/-- The ephemeral partition target (XFS, mounted at /var). -/
def ephemeralTarget (act : Action) (bytes : Nat) : Target :=
  { label := EphemeralPartitionLabel
    typeGUID := LinuxFilesystemData
    fs := FilesystemKind.xfs
    action := act
    preserveContent := preservesFor act
    sizeBytes := bytes
    attributes := 0
    mountPath := some ["var"] }

/-- The six targets of the partition spec table, in spec order, with the
given per-partition actions and the given state/ephemeral sizes. -/
def standardTargets (c : FixedSizes) (aEFI aBIOS aBoot aMeta aState aEph : Action)
    (stateBytes ephBytes : Nat) : List Target :=
  [efiTarget c aEFI, biosTarget c aBIOS, bootTarget c aBoot, metaTarget c aMeta,
    stateTarget aState stateBytes, ephemeralTarget aEph ephBytes]

/-! ## Manifest planner (spec section 4.2)

Modelled from the spec: `Plan(sequence, layout, options)` is a pure
function of the detected layout, the sequence kind and the options.
The size formulas of the upgrade branches are the ones asserted by
manifest_test.go lines 143-158. -/

/-- Targets of a from-scratch install: every spec-table partition is
created fresh, the state partition at its fixed size, the ephemeral
partition receiving the remainder. -/
def freshTargets (c : FixedSizes) (disk : Nat) : List Target :=
  standardTargets c Action.createFresh Action.createFresh Action.createFresh
    Action.createFresh Action.createFresh Action.createFresh
    c.StateSize (freshEphemeralBytes c disk)

/-- Targets of an upgrade over the current layout: the five fixed
partitions are reused in place; the ephemeral partition is reused
(content preserved) unless `force` is set, in which case it is recreated
fresh.  The sizes coincide with a fresh install's. -/
def currentUpgradeTargets (c : FixedSizes) (disk : Nat) (force : Bool) : List Target :=
  standardTargets c Action.reuse Action.reuse Action.reuse Action.reuse Action.reuse
    (if force then Action.createFresh else Action.reuse)
    c.StateSize (freshEphemeralBytes c disk)

/-- Targets of a forced upgrade from the legacy two-partition layout:
boot and ephemeral content is migrated, everything absent from the
legacy disk is created fresh, and all sizes follow the fresh-install
formulas. -/
def legacyForceTargets (c : FixedSizes) (disk : Nat) : List Target :=
  standardTargets c Action.createFresh Action.createFresh Action.migrateFromLegacy
    Action.createFresh Action.createFresh Action.migrateFromLegacy
    c.StateSize (freshEphemeralBytes c disk)

/-- Targets of a preserve upgrade from the legacy two-partition layout:
same actions as the forced variant, but the ephemeral partition keeps
its legacy size and the state partition absorbs the remainder
(manifest_test.go lines 143-158). -/
def legacyPreserveTargets (c : FixedSizes) (disk : Nat) : List Target :=
  standardTargets c Action.createFresh Action.createFresh Action.migrateFromLegacy
    Action.createFresh Action.createFresh Action.migrateFromLegacy
    (legacyStateBytes c disk) (legacyEphemeralSizeOf disk)

/-- Fresh plan with its space check: planning fails when the computed
remainder — the disk bytes minus all fixed sizes minus the GPT reserved
regions, rounded down to the logical block size — is not positive
(spec section 4.2: "Planning fails if this is ≤ 0"). -/
def planFresh (c : FixedSizes) (disk : Nat) : Except PlanError (List Target) :=
  if freshEphemeralBytes c disk = 0 then Except.error PlanError.insufficientSpace
  else Except.ok (freshTargets c disk)

/-- The manifest planner.  Every branch checks that its computed
block-aligned remainder — the fresh ephemeral remainder, or the state
remainder on a preserve upgrade from the legacy layout — is positive,
and that a legacy source disk is large enough to hold a legacy layout
at all. -/
def plan (c : FixedSizes) (disk : Nat) (seq : Sequence) (layout : Layout)
    (opts : Options) : Except PlanError (List Target) :=
  match seq, layout with
  | Sequence.install, Layout.noLayout => planFresh c disk
  | Sequence.install, _ =>
      if opts.force then planFresh c disk else Except.error PlanError.unsupportedLayout
  | Sequence.upgrade, Layout.noLayout => Except.error PlanError.unsupportedLayout
  | Sequence.upgrade, Layout.current =>
      if freshEphemeralBytes c disk = 0 then Except.error PlanError.insufficientSpace
      else Except.ok (currentUpgradeTargets c disk opts.force)
  | Sequence.upgrade, Layout.legacy =>
      if opts.force then
        if freshEphemeralBytes c disk = 0 then Except.error PlanError.insufficientSpace
        else Except.ok (legacyForceTargets c disk)
      else
        if disk ≤ legacyBootSize + reservedBytes then Except.error PlanError.insufficientSpace
        else if legacyStateBytes c disk = 0 then Except.error PlanError.insufficientSpace
        else Except.ok (legacyPreserveTargets c disk)

/-! ## GPT partition table (spec section 3) -/

/-- One entry of the written GPT table.  `length` is in sectors, as
reported by `part.Length()` in the test assertions. -/
structure Partition where
  number : Nat
  typeGUID : String
  name : String
  length : Nat
  attributes : Nat
deriving DecidableEq, Repr

/-- Turn the `n`-th target into its table entry. -/
def targetPartition (n : Nat) (t : Target) : Partition :=
  { number := n
    typeGUID := t.typeGUID
    name := t.label
    length := t.sizeBytes / lbaSize
    attributes := t.attributes }

/-- Number a list of targets starting from `n`. -/
def numberTargets : Nat → List Target → List Partition
  | _, [] => []
  | n, t :: ts => targetPartition n t :: numberTargets (n + 1) ts

/-- The GPT table written for a manifest: targets in spec order,
numbered from 1 (spec invariant: partition numbering matches ascending
spec-table order). -/
def targetsToTable (ts : List Target) : List Partition :=
  numberTargets 1 ts

/-- Sector boundaries (start, end) of each partition when laid out
back to back from the first usable sector `firstLBA`. -/
def partitionEnds : Nat → List Partition → List (Nat × Nat)
  | _, [] => []
  | start, p :: ps => (start, start + p.length) :: partitionEnds (start + p.length) ps

/-! ## Disk state and manifest executor (spec section 4.3)

Modelled from the spec: `Execute` applies the manifest steps in order.
The partition-table, formatting and migration steps (spec steps 1-4)
are what `Manifest.Execute` performs in the test suite; the asset
placement and boot-slot record write (spec steps 5-6) are the slot
activation the test suite performs right after `Execute`
(manifest_test.go lines 221-235).  Content is tracked per partition:
the slot directories holding a kernel under the boot partition, the
configuration file on the (legacy) boot partition, the configuration
file on the state partition, a marker for the ephemeral data, and the
raw bytes at the start of the meta partition. -/

/-- Abstract state of the disk: written table plus per-partition content. -/
structure DiskState where
  table : List Partition
  bootSlots : List String
  bootConfig : Option String
  stateConfig : Option String
  ephemeral : Option String
  meta : Option String
deriving DecidableEq, Repr

/-- A disk with no table and no content. -/
def cleanState : DiskState :=
  { table := [], bootSlots := [], bootConfig := none, stateConfig := none,
    ephemeral := none, meta := none }

/-- The configuration file content the test suite writes
(manifest_test.go lines 224, 450). -/
def configContent : String := "#!yaml"

/-- The ephemeral marker content the test suite writes
(manifest_test.go lines 237, 451). -/
def dataContent : String := "data"

/-- Slot label "A" used by the tests. -/
def slotA : String := "A"

/-- Slot label "B" used by the tests. -/
def slotB : String := "B"

/-- The legacy disk content `createTalosLegacyLayout` sets up: a
configuration file on the legacy boot partition and a marker file on the
legacy ephemeral partition (manifest_test.go lines 450-451); there is no
meta or state partition on a legacy disk. -/
def legacyDiskState : DiskState :=
  { table := [], bootSlots := [], bootConfig := some configContent, stateConfig := none,
    ephemeral := some dataContent, meta := none }

/-- One step of an installer run (spec section 4.3 steps 1-6). -/
inductive Step where
  | zeroHeader : Step
  | writeTable : Step
  | formatFS : Step
  | migrateContent : Step
  | placeAssets (slot : String) (cfg : String) : Step
  | writeRecord (slot : String) : Step
deriving DecidableEq, Repr

/-- Action planned for the target with the given label, if any. -/
def actionOf (ts : List Target) (l : String) : Option Action :=
  (ts.find? fun t => t.label == l).map fun t => t.action

/-- Whether the target with the given label is created fresh. -/
def freshAt (ts : List Target) (l : String) : Bool :=
  match actionOf ts l with
  | some Action.createFresh => true
  | _ => false

/-- Whether the target with the given label is migrated from the legacy
layout. -/
def migrateAt (ts : List Target) (l : String) : Bool :=
  match actionOf ts l with
  | some Action.migrateFromLegacy => true
  | _ => false

/-- Effect of one step on the disk state.

  * `zeroHeader`  : remove any existing table signature (spec step 1);
  * `writeTable`  : write the GPT table to match every target (step 2);
  * `formatFS`    : format the freshly created non-raw partitions,
                    erasing their content; reused and migrated
                    partitions keep theirs, raw regions are untouched
                    (step 3);
  * `migrateContent` : carry the legacy content forward; the legacy boot
                    partition's configuration file lands on the new
                    state partition (step 4, and the config persistence
                    assertion after the legacy upgrades);
  * `placeAssets` : install the next slot's kernel under its boot
                    subdirectory and write the new configuration file
                    into state (step 5);
  * `writeRecord` : record the next slot label in the raw meta region
                    (step 6). -/
def applyStep (ts : List Target) : Step → DiskState → DiskState
  | Step.zeroHeader, s => { s with table := [] }
  | Step.writeTable, s => { s with table := targetsToTable ts }
  | Step.formatFS, s =>
      { s with
        bootSlots := if freshAt ts BootPartitionLabel then [] else s.bootSlots
        bootConfig := if freshAt ts BootPartitionLabel then none else s.bootConfig
        stateConfig := if freshAt ts StatePartitionLabel then none else s.stateConfig
        ephemeral := if freshAt ts EphemeralPartitionLabel then none else s.ephemeral }
  | Step.migrateContent, s =>
      if migrateAt ts BootPartitionLabel then { s with stateConfig := s.bootConfig } else s
  | Step.placeAssets slot cfg, s =>
      { s with
        bootSlots := if slot ∈ s.bootSlots then s.bootSlots else s.bootSlots ++ [slot]
        stateConfig := some cfg }
  | Step.writeRecord slot, s => { s with meta := some slot }

/-- Apply a list of steps in order. -/
def applySteps (ts : List Target) (steps : List Step) (s : DiskState) : DiskState :=
  steps.foldl (fun s st => applyStep ts st s) s

/-- The steps `Manifest.Execute` performs (spec steps 1-4): optional
header zeroing, table write, formatting, content migration. -/
def executeSteps (opts : Options) : List Step :=
  (if opts.zero then [Step.zeroHeader] else []) ++
    [Step.writeTable, Step.formatFS, Step.migrateContent]

/-- `Manifest.Execute`: apply the partitioning steps of the manifest. -/
def manifestExecute (ts : List Target) (opts : Options) (s : DiskState) : DiskState :=
  applySteps ts (executeSteps opts) s

/-- The full installer run: `Execute` followed by the activation of the
next boot slot (spec steps 5-6). -/
def installerSteps (opts : Options) (slot cfg : String) : List Step :=
  executeSteps opts ++ [Step.placeAssets slot cfg, Step.writeRecord slot]

/-- Slot activation alone (spec steps 5-6, the writes the test suite
performs at manifest_test.go lines 221-235). -/
def activateSlot (slot cfg : String) (s : DiskState) : DiskState :=
  applySteps [] [Step.placeAssets slot cfg, Step.writeRecord slot] s

/-- The full installer run as a single function. -/
def installerRun (ts : List Target) (opts : Options) (slot cfg : String)
    (s : DiskState) : DiskState :=
  applySteps ts (installerSteps opts slot cfg) s

/-- Plan, then execute on success; on a planning error the disk state is
returned untouched (spec section 7: planning errors are surfaced before
any disk mutation). -/
def planExecuteState (c : FixedSizes) (disk : Nat) (seq : Sequence) (layout : Layout)
    (opts : Options) (s : DiskState) : DiskState :=
  match plan c disk seq layout opts with
  | Except.error _ => s
  | Except.ok ts => manifestExecute ts opts s

/-! ## Mountpoint builder (spec section 4.4)

Modelled from the spec: one mount entry per target that has a
filesystem and a mount path, ordered so that no child path is mounted
before its parent (a parent path has fewer components, so ordering by
component count suffices). -/

/-- One system mount entry. -/
structure MountPoint where
  label : String
  fs : FilesystemKind
  target : List String
deriving DecidableEq, Repr

/-- Insert while keeping shallower mount targets first. -/
def insertByDepth (x : MountPoint) : List MountPoint → List MountPoint
  | [] => [x]
  | y :: ys =>
      if x.target.length ≤ y.target.length then x :: y :: ys
      else y :: insertByDepth x ys

/-- Sort mount entries so that every parent path precedes its children. -/
def sortByDepth : List MountPoint → List MountPoint
  | [] => []
  | x :: xs => insertByDepth x (sortByDepth xs)

/-- `Manifest.SystemMountpoints`: one entry per non-raw target with a
mount path, parents before children. -/
def systemMountpoints (ts : List Target) : List MountPoint :=
  sortByDepth (ts.filterMap fun t =>
    match t.fs, t.mountPath with
    | FilesystemKind.raw, _ => none
    | _, none => none
    | fs, some p => some { label := t.label, fs := fs, target := p })

/-- The size, in bytes, of the target carrying the given label. -/
def sizeOfLabel (ts : List Target) (l : String) : Option Nat :=
  (ts.find? fun t => t.label == l).map fun t => t.sizeBytes

/-- The plan's target list, or the empty list on a planning error. -/
def planOr (r : Except PlanError (List Target)) : List Target :=
  match r with
  | Except.ok ts => ts
  | Except.error _ => []

/-- The four system mount entries of any manifest over the standard
six-partition layout: /boot, /var, /boot/EFI and /system/state, with
every parent path before its children.  The raw meta and BIOS boot
partitions have no mount entry. -/
def standardMounts : List MountPoint :=
  [{ label := BootPartitionLabel, fs := FilesystemKind.vfat, target := ["boot"] },
   { label := EphemeralPartitionLabel, fs := FilesystemKind.xfs, target := ["var"] },
   { label := EFIPartitionLabel, fs := FilesystemKind.vfat, target := ["boot", "EFI"] },
   { label := StatePartitionLabel, fs := FilesystemKind.xfs, target := ["system", "state"] }]

/-- The disk state after the test suite's initial install of slot "A"
and its activation: the fresh table is on disk, the boot partition holds
the "A" slot directory, state holds the configuration file, ephemeral
holds the marker and the meta region records "A"
(`TestExecuteManifestForce` / `TestExecuteManifestPreserve`, first
half). -/
def installedStateA : DiskState :=
  { table := targetsToTable (freshTargets stdSizes testDiskSize)
    bootSlots := [slotA]
    bootConfig := none
    stateConfig := some configContent
    ephemeral := some dataContent
    meta := some slotA }

/-! ## Helper lemmas -/

theorem applySteps_nil (ts : List Target) (s : DiskState) : applySteps ts [] s = s := rfl

theorem applySteps_cons (ts : List Target) (st : Step) (steps : List Step) (s : DiskState) :
    applySteps ts (st :: steps) s = applySteps ts steps (applyStep ts st s) := rfl

theorem table_migrateContent (ts : List Target) (s : DiskState) :
    (applyStep ts Step.migrateContent s).table = s.table := by
  simp only [applyStep]
  split <;> rfl

theorem meta_migrateContent (ts : List Target) (s : DiskState) :
    (applyStep ts Step.migrateContent s).meta = s.meta := by
  simp only [applyStep]
  split <;> rfl

/-- `Manifest.Execute` always leaves the disk with exactly the GPT table
described by the manifest's targets. -/
theorem manifestExecute_table (ts : List Target) (opts : Options) (s : DiskState) :
    (manifestExecute ts opts s).table = targetsToTable ts := by
  obtain ⟨f, z, b⟩ := opts
  cases z <;>
    simp only [manifestExecute, executeSteps, Bool.false_eq_true, if_false, if_true,
      List.nil_append, List.cons_append, List.append_nil, applySteps_cons, applySteps_nil,
      table_migrateContent] <;>
    rfl

/-- A disk at least one logical block beyond the fixed sizes and the
GPT reserved regions has a positive block-aligned fresh remainder. -/
theorem freshEphemeralBytes_ne_zero (c : FixedSizes) (disk : Nat)
    (h : sumFixed c + reservedBytes + lbaSize ≤ disk) :
    freshEphemeralBytes c disk ≠ 0 := by
  simp only [freshEphemeralBytes, alignDown, sumFixed, reservedBytes, lbaSize,
    gptReserved] at *
  omega

/-- The block-aligned fresh remainder vanishes exactly on the disks
whose raw remainder is below one logical block. -/
theorem freshEphemeralBytes_eq_zero (c : FixedSizes) (disk : Nat)
    (h : disk < sumFixed c + reservedBytes + lbaSize) :
    freshEphemeralBytes c disk = 0 := by
  simp only [freshEphemeralBytes, alignDown, sumFixed, reservedBytes, lbaSize,
    gptReserved] at *
  omega

/-- On a preserve upgrade from a large-enough legacy disk, the state
remainder is positive when the four fixed sizes before state leave at
least one logical block inside the legacy boot partition's extent. -/
theorem legacyStateBytes_ne_zero (c : FixedSizes) (disk : Nat)
    (h1 : legacyBootSize + reservedBytes < disk)
    (h2 : sumFixedNoState c + lbaSize ≤ legacyBootSize) :
    legacyStateBytes c disk ≠ 0 := by
  simp only [legacyStateBytes, alignDown, legacyEphemeralSizeOf, sumFixedNoState,
    legacyBootSize, reservedBytes, MiB, lbaSize, gptReserved] at *
  omega

/-- Branch lemma: planning an install on a clean disk with enough space
produces the fresh targets. -/
theorem plan_install_clean (c : FixedSizes) (disk : Nat) (opts : Options)
    (h : sumFixed c + reservedBytes + lbaSize ≤ disk) :
    plan c disk Sequence.install Layout.noLayout opts = Except.ok (freshTargets c disk) := by
  simp only [plan, planFresh, if_neg (freshEphemeralBytes_ne_zero c disk h)]

/-- Branch lemma: planning an upgrade over the current layout with
enough space produces the current-upgrade targets. -/
theorem plan_upgrade_current (c : FixedSizes) (disk : Nat) (opts : Options)
    (h : sumFixed c + reservedBytes + lbaSize ≤ disk) :
    plan c disk Sequence.upgrade Layout.current opts =
      Except.ok (currentUpgradeTargets c disk opts.force) := by
  simp only [plan, if_neg (freshEphemeralBytes_ne_zero c disk h)]

/-- Branch lemma: planning a forced upgrade from the legacy layout with
enough space produces the forced legacy targets. -/
theorem plan_upgrade_legacy_force (c : FixedSizes) (disk : Nat) (opts : Options)
    (hf : opts.force = true) (h : sumFixed c + reservedBytes + lbaSize ≤ disk) :
    plan c disk Sequence.upgrade Layout.legacy opts = Except.ok (legacyForceTargets c disk) := by
  simp only [plan, hf, if_true, if_neg (freshEphemeralBytes_ne_zero c disk h)]

/-- Branch lemma: planning a preserve upgrade from the legacy layout
produces the preserve legacy targets. -/
theorem plan_upgrade_legacy_preserve (c : FixedSizes) (disk : Nat) (opts : Options)
    (hf : opts.force = false) (h1 : legacyBootSize + reservedBytes < disk)
    (h2 : sumFixedNoState c + lbaSize ≤ legacyBootSize) :
    plan c disk Sequence.upgrade Layout.legacy opts =
      Except.ok (legacyPreserveTargets c disk) := by
  simp only [plan, hf, Bool.false_eq_true, if_false, if_neg (Nat.not_le.mpr h1),
    if_neg (legacyStateBytes_ne_zero c disk h1 h2)]

/-! ## Claim theorems -/

/-- C3: On a clean disk of supported size, `Plan` followed by `Execute`
for an install produces exactly the six partitions of the spec table in
the order EFI, BIOS boot, Boot, Meta, State, Ephemeral, numbered from 1,
where the first five have their fixed byte lengths (in sectors:
size / lbaSize), the ephemeral partition receives the remainder
(disk bytes minus all fixed sizes, in sectors, minus the GPT reserved
sectors), the BIOS boot partition carries the legacy-bootable attribute
bit (attribute value 4) and every other partition has zero attributes. -/
theorem cleanInstall_produces_spec_table (c : FixedSizes) (disk : Nat) (opts : Options)
    (s : DiskState) (hspace : sumFixed c + reservedBytes < disk)
    (hdisk : disk % lbaSize = 0) (hefi : c.EFISize % lbaSize = 0)
    (hbios : c.BIOSGrubSize % lbaSize = 0) (hboot : c.BootSize % lbaSize = 0)
    (hmeta : c.MetaSize % lbaSize = 0) (hstate : c.StateSize % lbaSize = 0) :
    plan c disk Sequence.install Layout.noLayout opts = Except.ok (freshTargets c disk) ∧
    (manifestExecute (freshTargets c disk) opts s).table =
      [{ number := 1, typeGUID := EFISystemPartition, name := EFIPartitionLabel,
         length := c.EFISize / lbaSize, attributes := 0 },
       { number := 2, typeGUID := BIOSBootPartition, name := BIOSGrubPartitionLabel,
         length := c.BIOSGrubSize / lbaSize, attributes := 4 },
       { number := 3, typeGUID := LinuxFilesystemData, name := BootPartitionLabel,
         length := c.BootSize / lbaSize, attributes := 0 },
       { number := 4, typeGUID := LinuxFilesystemData, name := MetaPartitionLabel,
         length := c.MetaSize / lbaSize, attributes := 0 },
       { number := 5, typeGUID := LinuxFilesystemData, name := StatePartitionLabel,
         length := c.StateSize / lbaSize, attributes := 0 },
       { number := 6, typeGUID := LinuxFilesystemData, name := EphemeralPartitionLabel,
         length := (disk - sumFixed c) / lbaSize - gptReserved, attributes := 0 }] := by
  have hspace2 : sumFixed c + reservedBytes + lbaSize ≤ disk := by
    simp only [sumFixed, reservedBytes, lbaSize, gptReserved] at hspace hdisk hefi hbios
    simp only [sumFixed, reservedBytes, lbaSize, gptReserved] at hboot hmeta hstate ⊢
    omega
  refine ⟨plan_install_clean c disk opts hspace2, ?_⟩
  rw [manifestExecute_table]
  have hlen : freshEphemeralBytes c disk / lbaSize = (disk - sumFixed c) / lbaSize - gptReserved := by
    simp only [freshEphemeralBytes, alignDown, reservedBytes, sumFixed, lbaSize,
      gptReserved] at *
    omega
  simp only [freshTargets, standardTargets, targetsToTable, numberTargets, targetPartition,
    efiTarget, biosTarget, bootTarget, metaTarget, stateTarget, ephemeralTarget, hlen]

/-- Witness for C3 at the test scenario: a clean 4 GiB disk with the
representative fixed sizes. -/
theorem cleanInstall_produces_spec_table_witness :
    plan stdSizes testDiskSize Sequence.install Layout.noLayout
        { force := true, zero := false, bootloader := true } =
      Except.ok (freshTargets stdSizes testDiskSize) ∧
    (manifestExecute (freshTargets stdSizes testDiskSize)
        { force := true, zero := false, bootloader := true } cleanState).table =
      [{ number := 1, typeGUID := EFISystemPartition, name := EFIPartitionLabel,
         length := stdSizes.EFISize / lbaSize, attributes := 0 },
       { number := 2, typeGUID := BIOSBootPartition, name := BIOSGrubPartitionLabel,
         length := stdSizes.BIOSGrubSize / lbaSize, attributes := 4 },
       { number := 3, typeGUID := LinuxFilesystemData, name := BootPartitionLabel,
         length := stdSizes.BootSize / lbaSize, attributes := 0 },
       { number := 4, typeGUID := LinuxFilesystemData, name := MetaPartitionLabel,
         length := stdSizes.MetaSize / lbaSize, attributes := 0 },
       { number := 5, typeGUID := LinuxFilesystemData, name := StatePartitionLabel,
         length := stdSizes.StateSize / lbaSize, attributes := 0 },
       { number := 6, typeGUID := LinuxFilesystemData, name := EphemeralPartitionLabel,
         length := (testDiskSize - sumFixed stdSizes) / lbaSize - gptReserved,
         attributes := 0 }] :=
  cleanInstall_produces_spec_table stdSizes testDiskSize
    { force := true, zero := false, bootloader := true } cleanState
    (by decide) (by decide) (by decide) (by decide) (by decide) (by decide) (by decide)

/-- C4: Re-running `Plan` plus `Execute` with `force = true` on an
already-installed (current-layout) disk writes a GPT table identical to
the one a fresh install produces on a clean disk of the same size, so
all partition boundaries are byte-identical. -/
theorem forceReinstall_boundaries_identical (c : FixedSizes) (disk : Nat)
    (opts opts2 : Options) (s s2 : DiskState) (hf : opts.force = true)
    (hspace : sumFixed c + reservedBytes + lbaSize ≤ disk) :
    ∃ ts ts2,
      plan c disk Sequence.upgrade Layout.current opts = Except.ok ts ∧
      plan c disk Sequence.install Layout.noLayout opts2 = Except.ok ts2 ∧
      (manifestExecute ts opts s).table = (manifestExecute ts2 opts2 s2).table ∧
      ∀ firstLBA, partitionEnds firstLBA (manifestExecute ts opts s).table =
        partitionEnds firstLBA (manifestExecute ts2 opts2 s2).table := by
  refine ⟨currentUpgradeTargets c disk opts.force, freshTargets c disk,
    plan_upgrade_current c disk opts hspace, plan_install_clean c disk opts2 hspace, ?_, ?_⟩
  · rw [manifestExecute_table, manifestExecute_table, hf]
    rfl
  · intro firstLBA
    rw [manifestExecute_table, manifestExecute_table, hf]
    rfl

/-- Witness for C4 at the test scenario: the 4 GiB disk, the forced
upgrade of `TestExecuteManifestForce` against a fresh install. -/
theorem forceReinstall_boundaries_identical_witness :
    ∃ ts ts2,
      plan stdSizes testDiskSize Sequence.upgrade Layout.current
          { force := true, zero := true, bootloader := true } = Except.ok ts ∧
      plan stdSizes testDiskSize Sequence.install Layout.noLayout
          { force := true, zero := false, bootloader := true } = Except.ok ts2 ∧
      (manifestExecute ts { force := true, zero := true, bootloader := true } cleanState).table =
        (manifestExecute ts2 { force := true, zero := false, bootloader := true }
          cleanState).table ∧
      ∀ firstLBA,
        partitionEnds firstLBA
            (manifestExecute ts { force := true, zero := true, bootloader := true }
              cleanState).table =
          partitionEnds firstLBA
            (manifestExecute ts2 { force := true, zero := false, bootloader := true }
              cleanState).table :=
  forceReinstall_boundaries_identical stdSizes testDiskSize
    { force := true, zero := true, bootloader := true }
    { force := true, zero := false, bootloader := true } cleanState cleanState rfl (by decide)

/-- C1 counterexample: on the 4 GiB legacy disk of the test suite, the
preserve upgrade (`TestExecuteManifestLegacyPreserve`, force = false)
keeps the migrated ephemeral partition at its legacy size
(disk minus the 512 MiB legacy boot partition minus the GPT reserved
regions, manifest_test.go line 157), which differs from the
fresh-install remainder `disk - sum(fixed) - reserved`: the claim that
every legacy upgrade sizes Ephemeral by the fresh-install formula is
false. -/
theorem legacyPreserve_ephemeral_keeps_legacy_size_counterexample :
    sizeOfLabel (planOr (plan stdSizes testDiskSize Sequence.upgrade Layout.legacy
        { force := false, zero := false, bootloader := true })) EphemeralPartitionLabel =
      some (legacyEphemeralSizeOf testDiskSize) ∧
    legacyEphemeralSizeOf testDiskSize ≠ testDiskSize - sumFixed stdSizes - reservedBytes ∧
    legacyEphemeralSizeOf testDiskSize ≠ freshEphemeralBytes stdSizes testDiskSize := by
  refine ⟨?_, ?_, ?_⟩ <;> decide

/-- C1 (amended): on an upgrade from the legacy two-partition layout,
the migrated ephemeral partition is sized by the fresh-install remainder
formula (byte-compatible with a from-scratch install) when `force` is
set; with `force = false` (preserve) it instead keeps its legacy byte
size. -/
theorem legacyUpgrade_ephemeral_size (c : FixedSizes) (disk : Nat) (opts : Options)
    (h1 : sumFixed c + reservedBytes + lbaSize ≤ disk) (h2 : legacyBootSize + reservedBytes < disk)
    (h3 : sumFixedNoState c + lbaSize ≤ legacyBootSize) :
    ∃ ts, plan c disk Sequence.upgrade Layout.legacy opts = Except.ok ts ∧
      (opts.force = true →
        sizeOfLabel ts EphemeralPartitionLabel = some (freshEphemeralBytes c disk) ∧
        ∀ ts2, plan c disk Sequence.install Layout.noLayout opts = Except.ok ts2 →
          sizeOfLabel ts2 EphemeralPartitionLabel = sizeOfLabel ts EphemeralPartitionLabel) ∧
      (opts.force = false →
        sizeOfLabel ts EphemeralPartitionLabel = some (legacyEphemeralSizeOf disk)) := by
  cases hb : opts.force
  · refine ⟨legacyPreserveTargets c disk,
      plan_upgrade_legacy_preserve c disk opts hb h2 h3, ?_, ?_⟩
    · intro hcontra
      exact absurd hcontra (by decide)
    · intro _
      rfl
  · refine ⟨legacyForceTargets c disk, plan_upgrade_legacy_force c disk opts hb h1, ?_, ?_⟩
    · intro _
      refine ⟨rfl, ?_⟩
      intro ts2 hts2
      rw [plan_install_clean c disk opts h1] at hts2
      cases hts2
      rfl
    · intro hcontra
      exact absurd hcontra (by decide)

/-- Witness for C1 (amended) at the test's preserve legacy upgrade. -/
theorem legacyUpgrade_ephemeral_size_witness :
    ∃ ts, plan stdSizes testDiskSize Sequence.upgrade Layout.legacy
        { force := false, zero := false, bootloader := true } = Except.ok ts ∧
      ((false : Bool) = true →
        sizeOfLabel ts EphemeralPartitionLabel =
          some (freshEphemeralBytes stdSizes testDiskSize) ∧
        ∀ ts2, plan stdSizes testDiskSize Sequence.install Layout.noLayout
            { force := false, zero := false, bootloader := true } = Except.ok ts2 →
          sizeOfLabel ts2 EphemeralPartitionLabel = sizeOfLabel ts EphemeralPartitionLabel) ∧
      ((false : Bool) = false →
        sizeOfLabel ts EphemeralPartitionLabel =
          some (legacyEphemeralSizeOf testDiskSize)) :=
  legacyUpgrade_ephemeral_size stdSizes testDiskSize
    { force := false, zero := false, bootloader := true } (by decide) (by decide) (by decide)

/-- C10: On a preserve (force = false) upgrade from the legacy
two-partition layout, the ephemeral partition keeps exactly its
pre-migration legacy byte size (disk minus the 512 MiB legacy boot
partition minus the GPT reserved regions), and the state partition — not
ephemeral — absorbs all remaining space (disk minus the legacy ephemeral
size minus the EFI, BIOS boot, Boot and Meta fixed sizes minus the GPT
reserved regions) instead of its fixed size (manifest_test.go lines
143-158). -/
theorem legacyPreserve_state_absorbs_remainder (c : FixedSizes) (disk : Nat) (opts : Options)
    (hf : opts.force = false) (h2 : legacyBootSize + reservedBytes < disk)
    (h3 : sumFixedNoState c + lbaSize ≤ legacyBootSize)
    (hefi : c.EFISize % lbaSize = 0) (hbios : c.BIOSGrubSize % lbaSize = 0)
    (hboot : c.BootSize % lbaSize = 0) (hmeta : c.MetaSize % lbaSize = 0)
    (hne : sumFixed c ≠ legacyBootSize) :
    ∃ ts, plan c disk Sequence.upgrade Layout.legacy opts = Except.ok ts ∧
      sizeOfLabel ts EphemeralPartitionLabel =
        some (disk - legacyBootSize - reservedBytes) ∧
      sizeOfLabel ts StatePartitionLabel =
        some (disk - legacyEphemeralSizeOf disk - sumFixedNoState c - reservedBytes) ∧
      sizeOfLabel ts StatePartitionLabel ≠ some c.StateSize := by
  refine ⟨legacyPreserveTargets c disk,
    plan_upgrade_legacy_preserve c disk opts hf h2 h3, rfl, ?_, ?_⟩
  · have heq : legacyStateBytes c disk =
        disk - legacyEphemeralSizeOf disk - sumFixedNoState c - reservedBytes := by
      simp only [legacyStateBytes, alignDown, legacyEphemeralSizeOf, sumFixedNoState,
        legacyBootSize, reservedBytes, MiB, lbaSize, gptReserved] at *
      omega
    show some (legacyStateBytes c disk) =
      some (disk - legacyEphemeralSizeOf disk - sumFixedNoState c - reservedBytes)
    rw [heq]
  · have hne2 : legacyStateBytes c disk ≠ c.StateSize := by
      simp only [legacyStateBytes, alignDown, legacyEphemeralSizeOf, sumFixedNoState,
        sumFixed, legacyBootSize, reservedBytes, MiB, lbaSize, gptReserved] at *
      omega
    show some (legacyStateBytes c disk) ≠ some c.StateSize
    simp only [ne_eq, Option.some.injEq]
    exact hne2

/-- Witness for C10 at the test's preserve legacy upgrade on the 4 GiB
disk. -/
theorem legacyPreserve_state_absorbs_remainder_witness :
    ∃ ts, plan stdSizes testDiskSize Sequence.upgrade Layout.legacy
        { force := false, zero := false, bootloader := true } = Except.ok ts ∧
      sizeOfLabel ts EphemeralPartitionLabel =
        some (testDiskSize - legacyBootSize - reservedBytes) ∧
      sizeOfLabel ts StatePartitionLabel =
        some (testDiskSize - legacyEphemeralSizeOf testDiskSize -
          sumFixedNoState stdSizes - reservedBytes) ∧
      sizeOfLabel ts StatePartitionLabel ≠ some stdSizes.StateSize :=
  legacyPreserve_state_absorbs_remainder stdSizes testDiskSize
    { force := false, zero := false, bootloader := true } rfl (by decide) (by decide)
    (by decide) (by decide) (by decide) (by decide) (by decide)

/-- C2: An upgrade planned against the legacy two-partition layout is a
migration regardless of the force and preserve flags: the Boot and
Ephemeral targets get action MigrateFromLegacy with preserve-content
set, every partition absent from the legacy disk (EFI, BIOS, Meta,
State) gets action CreateFresh, and executing the manifest carries the
legacy content forward: the ephemeral data and the boot slot directories
survive, and the legacy boot partition's configuration file lands on the
new state partition. -/
theorem legacyUpgrade_is_migration (c : FixedSizes) (disk : Nat) (opts : Options)
    (s : DiskState) (h1 : sumFixed c + reservedBytes + lbaSize ≤ disk)
    (h2 : legacyBootSize + reservedBytes < disk) (h3 : sumFixedNoState c + lbaSize ≤ legacyBootSize) :
    ∃ ts, plan c disk Sequence.upgrade Layout.legacy opts = Except.ok ts ∧
      actionOf ts BootPartitionLabel = some Action.migrateFromLegacy ∧
      actionOf ts EphemeralPartitionLabel = some Action.migrateFromLegacy ∧
      actionOf ts EFIPartitionLabel = some Action.createFresh ∧
      actionOf ts BIOSGrubPartitionLabel = some Action.createFresh ∧
      actionOf ts MetaPartitionLabel = some Action.createFresh ∧
      actionOf ts StatePartitionLabel = some Action.createFresh ∧
      (∀ t ∈ ts, t.action = Action.migrateFromLegacy → t.preserveContent = true) ∧
      (manifestExecute ts opts s).ephemeral = s.ephemeral ∧
      (manifestExecute ts opts s).bootSlots = s.bootSlots ∧
      (manifestExecute ts opts s).stateConfig = s.bootConfig := by
  obtain ⟨f, z, bl⟩ := opts
  cases f
  · refine ⟨legacyPreserveTargets c disk,
      plan_upgrade_legacy_preserve c disk { force := false, zero := z, bootloader := bl }
        rfl h2 h3, rfl, rfl, rfl, rfl, rfl, rfl, ?_, ?_, ?_, ?_⟩
    · simp [legacyPreserveTargets, standardTargets, efiTarget, biosTarget, bootTarget,
        metaTarget, stateTarget, ephemeralTarget, preservesFor]
    · cases z <;> rfl
    · cases z <;> rfl
    · cases z <;> rfl
  · refine ⟨legacyForceTargets c disk,
      plan_upgrade_legacy_force c disk { force := true, zero := z, bootloader := bl }
        rfl h1, rfl, rfl, rfl, rfl, rfl, rfl, ?_, ?_, ?_, ?_⟩
    · simp [legacyForceTargets, standardTargets, efiTarget, biosTarget, bootTarget,
        metaTarget, stateTarget, ephemeralTarget, preservesFor]
    · cases z <;> rfl
    · cases z <;> rfl
    · cases z <;> rfl

/-- Witness for C2 at the test's legacy preserve upgrade, starting from
the legacy disk content written by `createTalosLegacyLayout`. -/
theorem legacyUpgrade_is_migration_witness :
    ∃ ts, plan stdSizes testDiskSize Sequence.upgrade Layout.legacy
        { force := false, zero := false, bootloader := true } = Except.ok ts ∧
      actionOf ts BootPartitionLabel = some Action.migrateFromLegacy ∧
      actionOf ts EphemeralPartitionLabel = some Action.migrateFromLegacy ∧
      actionOf ts EFIPartitionLabel = some Action.createFresh ∧
      actionOf ts BIOSGrubPartitionLabel = some Action.createFresh ∧
      actionOf ts MetaPartitionLabel = some Action.createFresh ∧
      actionOf ts StatePartitionLabel = some Action.createFresh ∧
      (∀ t ∈ ts, t.action = Action.migrateFromLegacy → t.preserveContent = true) ∧
      (manifestExecute ts { force := false, zero := false, bootloader := true }
        legacyDiskState).ephemeral = legacyDiskState.ephemeral ∧
      (manifestExecute ts { force := false, zero := false, bootloader := true }
        legacyDiskState).bootSlots = legacyDiskState.bootSlots ∧
      (manifestExecute ts { force := false, zero := false, bootloader := true }
        legacyDiskState).stateConfig = legacyDiskState.bootConfig :=
  legacyUpgrade_is_migration stdSizes testDiskSize
    { force := false, zero := false, bootloader := true } legacyDiskState
    (by decide) (by decide) (by decide)

theorem activateSlot_meta (slot cfg : String) (s : DiskState) :
    (activateSlot slot cfg s).meta = some slot := rfl

theorem activateSlot_ephemeral (slot cfg : String) (s : DiskState) :
    (activateSlot slot cfg s).ephemeral = s.ephemeral := rfl

theorem activateSlot_bootSlots (slot cfg : String) (s : DiskState) :
    (activateSlot slot cfg s).bootSlots =
      if slot ∈ s.bootSlots then s.bootSlots else s.bootSlots ++ [slot] := rfl

theorem mem_activateSlot_bootSlots_self (slot cfg : String) (s : DiskState) :
    slot ∈ (activateSlot slot cfg s).bootSlots := by
  rw [activateSlot_bootSlots]
  split
  · assumption
  · exact List.mem_append_right _ (List.mem_singleton.mpr rfl)

theorem mem_activateSlot_bootSlots_of_mem (x slot cfg : String) (s : DiskState)
    (h : x ∈ s.bootSlots) : x ∈ (activateSlot slot cfg s).bootSlots := by
  rw [activateSlot_bootSlots]
  split
  · exact h
  · exact List.mem_append_left _ h

/-- C5: A preserve upgrade (force = false) over the current layout
leaves the prior configuration file on the state partition, the
ephemeral content and the boot slot directories unchanged by
`Manifest.Execute`, and keeps the six partitions unchanged in count and
order; after the subsequent activation of the next slot (spec steps 5
and 6) the boot partition contains both the previous and the new slot
directories, the boot-slot record reads the new label, and the ephemeral
content is still untouched. -/
theorem preserveUpgrade_frame (c : FixedSizes) (disk : Nat) (opts : Options) (s : DiskState)
    (prev next newCfg : String) (hf : opts.force = false)
    (hspace : sumFixed c + reservedBytes + lbaSize ≤ disk) (hprev : prev ∈ s.bootSlots)
    (htable : s.table = targetsToTable (freshTargets c disk)) :
    ∃ ts, plan c disk Sequence.upgrade Layout.current opts = Except.ok ts ∧
      (manifestExecute ts opts s).stateConfig = s.stateConfig ∧
      (manifestExecute ts opts s).ephemeral = s.ephemeral ∧
      (manifestExecute ts opts s).bootSlots = s.bootSlots ∧
      (manifestExecute ts opts s).table = s.table ∧
      (manifestExecute ts opts s).table.length = 6 ∧
      prev ∈ (activateSlot next newCfg (manifestExecute ts opts s)).bootSlots ∧
      next ∈ (activateSlot next newCfg (manifestExecute ts opts s)).bootSlots ∧
      (activateSlot next newCfg (manifestExecute ts opts s)).meta = some next ∧
      (activateSlot next newCfg (manifestExecute ts opts s)).ephemeral = s.ephemeral := by
  obtain ⟨f, z, bl⟩ := opts
  simp only [Options.force] at hf
  subst hf
  have hbs : ∀ s2 : DiskState,
      (manifestExecute (currentUpgradeTargets c disk false)
        { force := false, zero := z, bootloader := bl } s2).bootSlots = s2.bootSlots := by
    intro s2
    cases z <;> rfl
  have heph : ∀ s2 : DiskState,
      (manifestExecute (currentUpgradeTargets c disk false)
        { force := false, zero := z, bootloader := bl } s2).ephemeral = s2.ephemeral := by
    intro s2
    cases z <;> rfl
  refine ⟨currentUpgradeTargets c disk false,
    plan_upgrade_current c disk { force := false, zero := z, bootloader := bl } hspace,
    ?_, heph s, hbs s, ?_, ?_, ?_, ?_, activateSlot_meta next newCfg _, ?_⟩
  · cases z <;> rfl
  · rw [manifestExecute_table, htable]
    rfl
  · rw [manifestExecute_table]
    rfl
  · refine mem_activateSlot_bootSlots_of_mem prev next newCfg _ ?_
    rw [hbs s]
    exact hprev
  · exact mem_activateSlot_bootSlots_self next newCfg _
  · rw [activateSlot_ephemeral]
    exact heph s

/-- Witness for C5 at the test scenario: the installed-slot-"A" disk,
preserve upgrade and activation of slot "B"
(`TestExecuteManifestPreserve`). -/
theorem preserveUpgrade_frame_witness :
    ∃ ts, plan stdSizes testDiskSize Sequence.upgrade Layout.current
        { force := false, zero := false, bootloader := true } = Except.ok ts ∧
      (manifestExecute ts { force := false, zero := false, bootloader := true }
        installedStateA).stateConfig = installedStateA.stateConfig ∧
      (manifestExecute ts { force := false, zero := false, bootloader := true }
        installedStateA).ephemeral = installedStateA.ephemeral ∧
      (manifestExecute ts { force := false, zero := false, bootloader := true }
        installedStateA).bootSlots = installedStateA.bootSlots ∧
      (manifestExecute ts { force := false, zero := false, bootloader := true }
        installedStateA).table = installedStateA.table ∧
      (manifestExecute ts { force := false, zero := false, bootloader := true }
        installedStateA).table.length = 6 ∧
      slotA ∈ (activateSlot slotB configContent
        (manifestExecute ts { force := false, zero := false, bootloader := true }
          installedStateA)).bootSlots ∧
      slotB ∈ (activateSlot slotB configContent
        (manifestExecute ts { force := false, zero := false, bootloader := true }
          installedStateA)).bootSlots ∧
      (activateSlot slotB configContent
        (manifestExecute ts { force := false, zero := false, bootloader := true }
          installedStateA)).meta = some slotB ∧
      (activateSlot slotB configContent
        (manifestExecute ts { force := false, zero := false, bootloader := true }
          installedStateA)).ephemeral = installedStateA.ephemeral :=
  preserveUpgrade_frame stdSizes testDiskSize
    { force := false, zero := false, bootloader := true } installedStateA
    slotA slotB configContent rfl (by decide) (by decide) rfl

/-- Every successful plan is a manifest over the standard six-partition
layout: some choice of actions and state/ephemeral sizes. -/
theorem plan_shape (c : FixedSizes) (disk : Nat) (seq : Sequence) (layout : Layout)
    (opts : Options) (ts : List Target) (h : plan c disk seq layout opts = Except.ok ts) :
    ∃ a1 a2 a3 a4 a5 a6 sb eb, ts = standardTargets c a1 a2 a3 a4 a5 a6 sb eb := by
  cases seq <;> cases layout <;>
    simp only [plan, planFresh] at h <;>
    (repeat' split at h) <;>
    first
      | exact Except.noConfusion h
      | (injection h with h2; exact ⟨_, _, _, _, _, _, _, _, h2.symm⟩)

/-- C6 counterexample: the mount set of the clean-install manifest on
the 4 GiB test disk has exactly four entries, as the test asserts at
manifest_test.go lines 167 and 181, but one of them is the EFI
partition (mounted under /boot/EFI): with the raw Meta and BIOS
partitions excluded, only three non-EFI targets remain, so the claim's
"never including the EFI partition" cannot hold together with the
asserted count of four. -/
theorem systemMountpoints_include_efi :
    (systemMountpoints (planOr (plan stdSizes testDiskSize Sequence.install Layout.noLayout
      { force := true, zero := false, bootloader := true }))).length = 4 ∧
    EFIPartitionLabel ∈ (systemMountpoints (planOr (plan stdSizes testDiskSize
      Sequence.install Layout.noLayout
      { force := true, zero := false, bootloader := true }))).map (fun m => m.label) := by
  refine ⟨?_, ?_⟩ <;> decide

/-- C6 (amended): for every manifest the planner can produce,
`SystemMountpoints` returns exactly one mount entry per non-raw target —
four entries: Boot at /boot, Ephemeral at /var, EFI at /boot/EFI and
State at /system/state — never including the raw Meta or BIOS boot
partitions, and ordered so that no entry whose mount path is nested
under another entry's target comes before that parent. -/
theorem systemMountpoints_entries (c : FixedSizes) (disk : Nat) (seq : Sequence)
    (layout : Layout) (opts : Options) (ts : List Target)
    (h : plan c disk seq layout opts = Except.ok ts) :
    systemMountpoints ts = standardMounts ∧
    (systemMountpoints ts).length = 4 ∧
    (systemMountpoints ts).map (fun m => m.label) =
      [BootPartitionLabel, EphemeralPartitionLabel, EFIPartitionLabel,
        StatePartitionLabel] ∧
    (∀ m ∈ systemMountpoints ts,
      m.label ≠ MetaPartitionLabel ∧ m.label ≠ BIOSGrubPartitionLabel) ∧
    List.Pairwise (fun a b => ¬(b.target ≠ a.target ∧ List.IsPrefix b.target a.target))
      (systemMountpoints ts) := by
  obtain ⟨a1, a2, a3, a4, a5, a6, sb, eb, rfl⟩ := plan_shape c disk seq layout opts ts h
  refine ⟨rfl, rfl, rfl, ?_, ?_⟩
  · show ∀ m ∈ standardMounts,
      m.label ≠ MetaPartitionLabel ∧ m.label ≠ BIOSGrubPartitionLabel
    decide
  · show List.Pairwise (fun a b => ¬(b.target ≠ a.target ∧ List.IsPrefix b.target a.target))
      standardMounts
    decide

/-- Witness for C6 (amended) at the clean-install manifest of the test
disk. -/
theorem systemMountpoints_entries_witness :
    systemMountpoints (freshTargets stdSizes testDiskSize) = standardMounts ∧
    (systemMountpoints (freshTargets stdSizes testDiskSize)).length = 4 ∧
    (systemMountpoints (freshTargets stdSizes testDiskSize)).map (fun m => m.label) =
      [BootPartitionLabel, EphemeralPartitionLabel, EFIPartitionLabel,
        StatePartitionLabel] ∧
    (∀ m ∈ systemMountpoints (freshTargets stdSizes testDiskSize),
      m.label ≠ MetaPartitionLabel ∧ m.label ≠ BIOSGrubPartitionLabel) ∧
    List.Pairwise (fun a b => ¬(b.target ≠ a.target ∧ List.IsPrefix b.target a.target))
      (systemMountpoints (freshTargets stdSizes testDiskSize)) :=
  systemMountpoints_entries stdSizes testDiskSize Sequence.install Layout.noLayout
    { force := true, zero := false, bootloader := true }
    (freshTargets stdSizes testDiskSize)
    (plan_install_clean stdSizes testDiskSize
      { force := true, zero := false, bootloader := true } (by decide))

/-- C7 counterexample: mirroring `TestExecuteManifestForce`, start from
the installed slot-"A" disk and run `Manifest.Execute` for the upgrade
that installs slot "B" (force and zero set).  Afterwards the meta
partition still reads "A" — the test itself asserts exactly this at
manifest_test.go line 216 before writing "B" by hand — so the claim
that after every successful Execute installing slot L the meta region
holds L is false. -/
theorem executeMeta_counterexample :
    (manifestExecute (planOr (plan stdSizes testDiskSize Sequence.upgrade Layout.current
        { force := true, zero := true, bootloader := true }))
      { force := true, zero := true, bootloader := true } installedStateA).meta = some slotA ∧
    some slotA ≠ some slotB := by
  refine ⟨?_, ?_⟩ <;> decide

/-- C7 (amended): the meta partition is a raw region holding the slot
label with no filesystem framing, so reading it returns exactly the
label last recorded; `Manifest.Execute` never writes it — the
previously recorded label survives execution byte-for-byte — and it is
the slot-activation step (spec step 6) that records the new label,
after which reading the region returns exactly that label. -/
theorem metaRecord_raw_semantics (ts : List Target) (opts : Options) (s : DiskState)
    (slot cfg : String) :
    (manifestExecute ts opts s).meta = s.meta ∧
    (activateSlot slot cfg s).meta = some slot := by
  refine ⟨?_, activateSlot_meta slot cfg s⟩
  obtain ⟨f, z, bl⟩ := opts
  cases z <;>
    simp only [manifestExecute, executeSteps, Bool.false_eq_true, if_false, if_true,
      List.nil_append, List.cons_append, List.append_nil, applySteps_cons, applySteps_nil,
      meta_migrateContent] <;>
    rfl

theorem applyStep_meta_of_not_record (ts : List Target) (st : Step) (s : DiskState)
    (h : ∀ slot, st ≠ Step.writeRecord slot) : (applyStep ts st s).meta = s.meta := by
  cases st
  case writeRecord slot => exact absurd rfl (h slot)
  case migrateContent => exact meta_migrateContent ts s
  all_goals rfl

theorem applySteps_meta_of_no_record (ts : List Target) :
    ∀ (steps : List Step) (s : DiskState),
      (∀ slot, Step.writeRecord slot ∉ steps) → (applySteps ts steps s).meta = s.meta
  | [], _, _ => rfl
  | st :: rest, s, h => by
      rw [applySteps_cons]
      rw [applySteps_meta_of_no_record ts rest (applyStep ts st s)
        (fun slot hmem => h slot (List.mem_cons_of_mem _ hmem))]
      exact applyStep_meta_of_not_record ts st s
        (fun slot heq => h slot (by rw [heq]; exact List.mem_cons_self _ _))

theorem no_record_in_executeSteps (opts : Options) (slot cfg : String) :
    ∀ slot2, Step.writeRecord slot2 ∉ executeSteps opts ++ [Step.placeAssets slot cfg] := by
  obtain ⟨f, z, bl⟩ := opts
  intro slot2 hmem
  cases z <;> simp [executeSteps] at hmem

/-- C8: The full installer run writes the next slot label into the
boot-slot record only as its very last step, after the zeroing, table
write, formatting, migration and asset placement; executing any proper
prefix of the steps (an installer run interrupted at any earlier point)
leaves the recorded boot slot unchanged, so the previously recorded
slot stays designated. -/
theorem recordWrite_is_last (ts : List Target) (opts : Options) (slot cfg : String)
    (s : DiskState) :
    (installerSteps opts slot cfg).getLast? = some (Step.writeRecord slot) ∧
    ∀ pre, List.IsPrefix pre (installerSteps opts slot cfg) →
      pre.length < (installerSteps opts slot cfg).length →
      (applySteps ts pre s).meta = s.meta := by
  have hsplit : installerSteps opts slot cfg =
      (executeSteps opts ++ [Step.placeAssets slot cfg]) ++ [Step.writeRecord slot] := by
    simp [installerSteps]
  constructor
  · rw [hsplit, List.getLast?_append]
    rfl
  · intro pre hpre hlen
    apply applySteps_meta_of_no_record
    intro slot2 hmem
    have hk := List.prefix_iff_eq_take.mp hpre
    rw [hk, hsplit] at hmem
    rw [hsplit] at hlen
    have hle : pre.length ≤ (executeSteps opts ++ [Step.placeAssets slot cfg]).length := by
      simp only [List.length_append, List.length_singleton] at hlen ⊢
      omega
    rw [List.take_append_of_le_length hle] at hmem
    exact no_record_in_executeSteps opts slot cfg slot2 (List.take_subset _ _ hmem)

/-- Witness for C8: the forced zeroing upgrade of the test suite; the
prefix that stops right after the table write leaves the recorded slot
"A" in place. -/
theorem recordWrite_is_last_witness :
    (installerSteps { force := true, zero := true, bootloader := true } slotB
      configContent).getLast? = some (Step.writeRecord slotB) ∧
    (applySteps (freshTargets stdSizes testDiskSize) [Step.zeroHeader, Step.writeTable]
      installedStateA).meta = installedStateA.meta :=
  ⟨(recordWrite_is_last (freshTargets stdSizes testDiskSize)
      { force := true, zero := true, bootloader := true } slotB configContent
      installedStateA).1,
    (recordWrite_is_last (freshTargets stdSizes testDiskSize)
      { force := true, zero := true, bootloader := true } slotB configContent
      installedStateA).2 [Step.zeroHeader, Step.writeTable] (by decide) (by decide)⟩

/-- C9: Whenever the computed remainder size — disk bytes minus the sum
of the fixed partition sizes minus the GPT reserved bytes, rounded down
to the logical block size — is less than or equal to zero (in ℕ: the
block-aligned remainder is zero, which covers every disk whose raw
remainder is below one logical block), `Plan` returns an error, for
every sequence, layout and set of flags (given that the fixed sizes
plus one block fit inside the legacy boot partition size, as the test
constants do); and every planning error is surfaced with the disk state
untouched — planning is side-effect-free and the executor never runs on
a failed plan. -/
theorem plan_fails_without_remainder (c : FixedSizes) (disk : Nat) (seq : Sequence)
    (layout : Layout) (opts : Options) (s : DiskState)
    (hc : sumFixed c + lbaSize ≤ legacyBootSize)
    (hlow : freshEphemeralBytes c disk = 0) :
    (∃ e, plan c disk seq layout opts = Except.error e) ∧
    (∀ c2 disk2 seq2 layout2 opts2 e,
      plan c2 disk2 seq2 layout2 opts2 = Except.error e →
      planExecuteState c2 disk2 seq2 layout2 opts2 s = s) := by
  constructor
  · have hraw : disk < sumFixed c + reservedBytes + lbaSize := by
      by_contra hge
      exact freshEphemeralBytes_ne_zero c disk (by omega) hlow
    have hlegacy : disk ≤ legacyBootSize + reservedBytes := by
      simp only [sumFixed, legacyBootSize, reservedBytes, MiB, lbaSize,
        gptReserved] at hraw hc ⊢
      omega
    cases seq <;> cases layout <;> simp only [plan, planFresh]
    · exact ⟨_, if_pos hlow⟩
    · cases hf : opts.force
      · exact ⟨_, if_neg (by simp)⟩
      · exact ⟨_, by rw [if_pos rfl, if_pos hlow]⟩
    · cases hf : opts.force
      · exact ⟨_, if_neg (by simp)⟩
      · exact ⟨_, by rw [if_pos rfl, if_pos hlow]⟩
    · exact ⟨_, rfl⟩
    · exact ⟨_, if_pos hlow⟩
    · cases hf : opts.force
      · exact ⟨_, by rw [if_neg (by simp), if_pos hlegacy]⟩
      · exact ⟨_, by rw [if_pos rfl, if_pos hlow]⟩
  · intro c2 disk2 seq2 layout2 opts2 e he
    simp only [planExecuteState, he]

/-- Witness for C9: a disk five bytes beyond the fixed sizes and the
reserved regions has a zero block-aligned remainder, and planning an
install on it fails; a 1 MiB disk fails likewise. -/
theorem plan_fails_without_remainder_witness :
    (∃ e, plan stdSizes (sumFixed stdSizes + reservedBytes + 5) Sequence.install
      Layout.noLayout { force := true, zero := false, bootloader := true } =
        Except.error e) ∧
    (∀ c2 disk2 seq2 layout2 opts2 e,
      plan c2 disk2 seq2 layout2 opts2 = Except.error e →
      planExecuteState c2 disk2 seq2 layout2 opts2 cleanState = cleanState) :=
  plan_fails_without_remainder stdSizes (sumFixed stdSizes + reservedBytes + 5)
    Sequence.install Layout.noLayout
    { force := true, zero := false, bootloader := true } cleanState (by decide) (by decide)

end Talos
